import Mathlib

/-!
# Verification of the filter-and-copy routine (`main.py`)

Shallow embedding of the single-file FastAPI service: the helper
`filter_files` (timestamp parsing, extension-list normalisation, the
recursive walk filter) and the endpoint `filter_and_copy` (directory
validation, `os.makedirs`, the best-effort `shutil.copy2` loop, the
JSON response).  Python strings are Lean `String`s; the string
primitives the source uses (`str.split`, `str.strip`, `str.lower`,
`str.lstrip`, `os.path.join`, `os.path.basename`) are modelled
character-for-character below (ASCII case mapping).  `datetime`
values are modelled by a `DateTime` record ordered lexicographically
through an injective numeric key; `datetime.strptime` with the fixed
format `"%Y-%m-%d %H:%M:%S"` is modelled after CPython's `_strptime`
regex (4-digit year, 1-2 digit other fields, `\s+` for the literal
space, whole-string match) followed by the `datetime` constructor's
range checks.  The filesystem is a record of existing directories and
file contents; per-file copy failures (permission, disk full,
vanished source) are abstracted by a failure oracle.
-/

/-! ## Python string primitives -/

/-- The characters of Python's `str.strip()` default set that also drive
the `\s` class of `_strptime` (space, tab, newline, return, vtab, formfeed). -/
def isPySpace (c : Char) : Bool :=
  c == ' ' || c == '\t' || c == '\n' || c == '\r' || c == '\x0b' || c == '\x0c'

/-- ASCII case mapping of `str.lower()` (the source only lowercases
extension tokens and filenames). -/
def pyLowerChar (c : Char) : Char :=
  if c = 'A' then 'a' else if c = 'B' then 'b' else if c = 'C' then 'c'
  else if c = 'D' then 'd' else if c = 'E' then 'e' else if c = 'F' then 'f'
  else if c = 'G' then 'g' else if c = 'H' then 'h' else if c = 'I' then 'i'
  else if c = 'J' then 'j' else if c = 'K' then 'k' else if c = 'L' then 'l'
  else if c = 'M' then 'm' else if c = 'N' then 'n' else if c = 'O' then 'o'
  else if c = 'P' then 'p' else if c = 'Q' then 'q' else if c = 'R' then 'r'
  else if c = 'S' then 's' else if c = 'T' then 't' else if c = 'U' then 'u'
  else if c = 'V' then 'v' else if c = 'W' then 'w' else if c = 'X' then 'x'
  else if c = 'Y' then 'y' else if c = 'Z' then 'z' else c

/-- ASCII case mapping of `str.upper()`. -/
def pyUpperChar (c : Char) : Char :=
  if c = 'a' then 'A' else if c = 'b' then 'B' else if c = 'c' then 'C'
  else if c = 'd' then 'D' else if c = 'e' then 'E' else if c = 'f' then 'F'
  else if c = 'g' then 'G' else if c = 'h' then 'H' else if c = 'i' then 'I'
  else if c = 'j' then 'J' else if c = 'k' then 'K' else if c = 'l' then 'L'
  else if c = 'm' then 'M' else if c = 'n' then 'N' else if c = 'o' then 'O'
  else if c = 'p' then 'P' else if c = 'q' then 'Q' else if c = 'r' then 'R'
  else if c = 's' then 'S' else if c = 't' then 'T' else if c = 'u' then 'U'
  else if c = 'v' then 'V' else if c = 'w' then 'W' else if c = 'x' then 'X'
  else if c = 'y' then 'Y' else if c = 'z' then 'Z' else c

/-- Strip leading and trailing Python whitespace from a character list
(the list-level core of `str.strip()`). -/
def stripL (l : List Char) : List Char :=
  ((l.dropWhile isPySpace).reverse.dropWhile isPySpace).reverse

/-- Model of `str.strip()`. -/
def pyStrip (s : String) : String := String.mk (stripL s.toList)

/-- Model of `str.lower()`. -/
def pyLower (s : String) : String := String.mk (s.toList.map pyLowerChar)

/-- Model of `str.upper()`. -/
def pyUpper (s : String) : String := String.mk (s.toList.map pyUpperChar)

/-- Model of `str.lstrip(".")`: drop leading dots. -/
def pyLstripDot (s : String) : String :=
  String.mk (s.toList.dropWhile (fun c => c == '.'))

/-- List-level core of Python's `str.split(sep)` for a one-character
separator: always returns at least one (possibly empty) piece. -/
def splitOnChar (sep : Char) : List Char → List (List Char)
  | [] => [[]]
  | c :: rest =>
    match splitOnChar sep rest with
    | [] => [[]]
    | h :: t => if c = sep then [] :: h :: t else (c :: h) :: t

/-- Python's `str.split(sep)` for a one-character separator. -/
def pySplit (sep : Char) (s : String) : List String :=
  (splitOnChar sep s.toList).map String.mk

/-- Model of `posixpath.join` for two components, as the source uses
`os.path.join(root, filename)` and `os.path.join(dest_folder, filename)`. -/
def joinPath (a b : String) : String :=
  if b.toList.head? = some '/' then b
  else if a.toList = [] ∨ a.toList.getLast? = some '/' then a ++ b
  else a ++ "/" ++ b

/-- Model of `os.path.basename`: the part after the last slash. -/
def basename (p : String) : String := (pySplit '/' p).getLastD ""

/-! ## `datetime` values and `datetime.strptime(s, "%Y-%m-%d %H:%M:%S")` -/

/-- A `datetime.datetime` value (no sub-second part is ever produced by
the fixed format, and file times are compared at this granularity). -/
structure DateTime where
  year : Nat
  month : Nat
  day : Nat
  hour : Nat
  minute : Nat
  second : Nat
deriving DecidableEq, Repr

/-- Injective numeric key realising lexicographic (chronological)
comparison of `datetime` values with in-range fields. -/
def DateTime.key (t : DateTime) : Nat :=
  ((((t.year * 13 + t.month) * 32 + t.day) * 24 + t.hour) * 60 + t.minute) * 60 + t.second

instance : LE DateTime := ⟨fun a b => a.key ≤ b.key⟩

instance : LT DateTime := ⟨fun a b => a.key < b.key⟩

instance (a b : DateTime) : Decidable (a ≤ b) :=
  inferInstanceAs (Decidable (a.key ≤ b.key))

instance (a b : DateTime) : Decidable (a < b) :=
  inferInstanceAs (Decidable (a.key < b.key))

theorem DateTime.le_iff (a b : DateTime) : a ≤ b ↔ a.key ≤ b.key := Iff.rfl

theorem DateTime.lt_iff (a b : DateTime) : a < b ↔ a.key < b.key := Iff.rfl

/-- The numeric value of a digit character, if it is one. -/
def digitVal? (c : Char) : Option Nat :=
  if c.isDigit then some (c.toNat - '0'.toNat) else none

/-- Field `%Y` in `_strptime`: exactly four digits. -/
def take4Digits (cs : List Char) : Option (Nat × List Char) :=
  match cs with
  | c1 :: c2 :: c3 :: c4 :: rest =>
    match digitVal? c1, digitVal? c2, digitVal? c3, digitVal? c4 with
    | some d1, some d2, some d3, some d4 => some (((d1 * 10 + d2) * 10 + d3) * 10 + d4, rest)
    | _, _, _, _ => none
  | _ => none

/-- A 1-2 digit numeric field of `_strptime`: the two-digit reading is
taken when its value satisfies `valid2`, otherwise a single digit
satisfying `valid1` (the regex alternations `1[0-2]|0[1-9]|[1-9]` etc.
are exactly of this shape, and greedy matching never needs backtracking
here because every field is followed by a non-digit literal or the end). -/
def take2or1 (valid2 valid1 : Nat → Bool) (cs : List Char) : Option (Nat × List Char) :=
  match cs with
  | [] => none
  | [c1] =>
    match digitVal? c1 with
    | some d1 => if valid1 d1 then some (d1, []) else none
    | none => none
  | c1 :: c2 :: rest =>
    match digitVal? c1, digitVal? c2 with
    | some d1, some d2 =>
      if valid2 (d1 * 10 + d2) then some (d1 * 10 + d2, rest)
      else if valid1 d1 then some (d1, c2 :: rest) else none
    | some d1, none => if valid1 d1 then some (d1, c2 :: rest) else none
    | none, _ => none

/-- A literal character of the format. -/
def takeLit (c : Char) : List Char → Option (List Char)
  | [] => none
  | x :: rest => if x = c then some rest else none

/-- Whitespace in a `strptime` format matches `\s+`: at least one
whitespace character, greedily. -/
def takeSpace1 (cs : List Char) : Option (List Char) :=
  match cs with
  | [] => none
  | x :: rest => if isPySpace x then some (rest.dropWhile isPySpace) else none

/-- Gregorian leap year, as `datetime` uses. -/
def isLeapYear (y : Nat) : Bool :=
  y % 4 == 0 && (y % 100 != 0 || y % 400 == 0)

/-- Days in a month, as validated by the `datetime` constructor. -/
def daysInMonth (y m : Nat) : Nat :=
  if m = 2 then (if isLeapYear y then 29 else 28)
  else if m = 4 ∨ m = 6 ∨ m = 9 ∨ m = 11 then 30
  else 31

/-- Model of `datetime.datetime.strptime(s, "%Y-%m-%d %H:%M:%S")`, returning
`none` where CPython raises `ValueError` (regex mismatch, unconverted
trailing data, or out-of-range values rejected by the `datetime`
constructor: year 0, day past the month's end, second 60 or 61). -/
def parseTimestamp (s : String) : Option DateTime := do
  let (y, r1) ← take4Digits s.toList
  let r2 ← takeLit '-' r1
  let (mo, r3) ← take2or1 (fun v => 1 ≤ v && v ≤ 12) (fun v => 1 ≤ v) r2
  let r4 ← takeLit '-' r3
  let (d, r5) ← take2or1 (fun v => 1 ≤ v && v ≤ 31) (fun v => 1 ≤ v) r4
  let r6 ← takeSpace1 r5
  let (h, r7) ← take2or1 (fun v => v ≤ 23) (fun _ => true) r6
  let r8 ← takeLit ':' r7
  let (mi, r9) ← take2or1 (fun v => v ≤ 59) (fun _ => true) r8
  let r10 ← takeLit ':' r9
  let (sec, r11) ← take2or1 (fun v => v ≤ 61) (fun _ => true) r10
  if r11 = [] then
    if 1 ≤ y ∧ 1 ≤ d ∧ d ≤ daysInMonth y mo ∧ sec ≤ 59 then
      some ⟨y, mo, d, h, mi, sec⟩
    else none
  else none

/-! ## The walk, `filter_files`, and the endpoint -/

/-- One file produced by `os.walk(folder_path)`: the directory `root` it
was found in, its `filename`, and its two filesystem timestamps
(`os.path.getmtime` / `os.path.getctime`, already converted through
`datetime.datetime.fromtimestamp`). -/
structure FileEntry where
  root : String
  filename : String
  mtime : DateTime
  ctime : DateTime
deriving DecidableEq, Repr

/-- The timestamp `filter_files` compares: creation time when
`use_created_time` is set, else modification time. -/
def fileTime (use_created_time : Bool) (e : FileEntry) : DateTime :=
  if use_created_time then e.ctime else e.mtime

/-- Model of `fastapi.HTTPException`: a status code and a detail message. -/
structure HTTPException where
  status_code : Nat
  detail : String
deriving DecidableEq, Repr

/-- Model of `filename.split(".")[-1].lower()`: the extension the walk filter
extracts (the whole lowercased name when there is no dot). -/
def extOf (filename : String) : String :=
  pyLower ((pySplit '.' filename).getLastD "")

/-- The normalised extension list:
`[fmt.strip().lower().lstrip(".") for fmt in file_formats.split(",") if fmt.strip()]`. -/
def normalizeFormats (file_formats : String) : List String :=
  ((pySplit ',' file_formats).filter (fun fmt => pyStrip fmt != "")).map
    (fun fmt => pyLstripDot (pyLower (pyStrip fmt)))

/-- The per-file test of the walk loop: extension membership, then the
inclusive timestamp-range check `from_dt <= file_time <= to_dt`. -/
def matchEntry (fmts : List String) (from_dt to_dt : DateTime) (use_created_time : Bool)
    (e : FileEntry) : Bool :=
  decide (extOf e.filename ∈ fmts) &&
    (decide (from_dt ≤ fileTime use_created_time e) &&
      decide (fileTime use_created_time e ≤ to_dt))

/-- Model of `filter_files(folder_path, from_timestamp, to_timestamp, file_formats,
use_created_time)`, the walk over `folder_path` being supplied as the
list of enumerated files.  Raised `HTTPException`s become `Except.error`. -/
def filter_files (walk : List FileEntry) (from_timestamp to_timestamp file_formats : String)
    (use_created_time : Bool) : Except HTTPException (List String) :=
  match parseTimestamp from_timestamp, parseTimestamp to_timestamp with
  | some from_dt, some to_dt =>
    let fmts := normalizeFormats file_formats
    if fmts = [] then
      Except.error ⟨400, "No valid file formats provided"⟩
    else
      Except.ok ((walk.filter (matchEntry fmts from_dt to_dt use_created_time)).map
        (fun e => joinPath e.root e.filename))
  | _, _ =>
    Except.error ⟨400, "Invalid timestamp format. Use 'YYYY-MM-DD HH:MM:SS'"⟩

/-- Filesystem state the endpoint mutates: the set of existing
directories and the contents of regular files (path-keyed). -/
structure FS where
  dirs : List String
  contents : List (String × String)
deriving DecidableEq, Repr

/-- The strict ancestors `os.makedirs` may have to create for `path`:
every proper slash-prefix of the path (the non-empty joins of proper
prefixes of its segment list). -/
def parentPrefixes (path : String) : List String :=
  let parts := pySplit '/' path
  ((List.range (parts.length - 1)).map
      (fun i => String.intercalate "/" (parts.take (i + 1)))).filter (fun q => q != "")

/-- The directory list after a successful `os.makedirs(path, ...)`:
unchanged when `path` exists, else the missing ancestors and `path`
itself are created. -/
def makedirsOk (dirs : List String) (path : String) : List String :=
  if path ∈ dirs then dirs
  else dirs ++ (parentPrefixes path).filter (fun q => decide (q ∉ dirs)) ++ [path]

/-- Model of `os.makedirs(path, exist_ok=...)`: with `exist_ok=False` an existing
leaf raises `FileExistsError`; otherwise creation (of missing ancestors
and the leaf) succeeds. -/
def makedirs (dirs : List String) (path : String) (exist_ok : Bool) :
    Except String (List String) :=
  if !exist_ok && dirs.contains path then Except.error ("FileExistsError: " ++ path)
  else Except.ok (makedirsOk dirs path)

/-- Store `v` at key `p`, replacing an existing binding (a filesystem
write: at most one file lives at a path). -/
def setContent : List (String × String) → String → String → List (String × String)
  | [], p, v => [(p, v)]
  | (q, w) :: rest, p, v =>
    if q = p then (p, v) :: rest else (q, w) :: setContent rest p v

/-- Read the file at path `p`, if one exists. -/
def getContent : List (String × String) → String → Option String
  | [], _ => none
  | (q, w) :: rest, p => if q = p then some w else getContent rest p

/-- Model of `shutil.copy2(src, dest_path)`: writes the source's data at the
destination, overwriting any existing file there.  Its failure modes
(permission, disk full, source vanished) are abstracted by the
`copyFails` oracle at the call site in `copyAll`. -/
def copy2 (fs : FS) (src dest_path : String) : FS :=
  { fs with contents := setContent fs.contents dest_path ((getContent fs.contents src).getD "") }

/-- The copy loop of the endpoint (lines 114-123): for each matched
source, `shutil.copy2` it to `dest_folder/basename`; a failing copy is
swallowed (`except ... continue`) and the file is simply not appended
to `copied_files`. -/
def copyAll (fs : FS) (copyFails : String → Bool) (dest_folder : String) :
    List String → FS × List String
  | [] => (fs, [])
  | src :: rest =>
    let dest_path := joinPath dest_folder (basename src)
    if copyFails src then copyAll fs copyFails dest_folder rest
    else
      let out := copyAll (copy2 fs src dest_path) copyFails dest_folder rest
      (out.1, dest_path :: out.2)

/-- The form fields of `POST /filter-and-copy`. -/
structure FilterRequest where
  source_folder : String
  from_timestamp : String
  to_timestamp : String
  file_formats : String
  use_created_time : Bool
  dest_folder_base : String
  dest_folder_name : String
deriving DecidableEq, Repr

/-- The JSON body of a successful response. -/
structure FilterResponse where
  status : String
  count : Nat
  destination_folder : String
  copied_files : List String
  skipped_files : Nat
deriving DecidableEq, Repr

/-- The environment a request runs against: the filesystem, the
enumeration `os.walk(source_folder)` yields in it, and the per-source
copy-failure oracle. -/
structure World where
  fs : FS
  walk : List FileEntry
  copyFails : String → Bool

/-- The `POST /filter-and-copy` handler: validate the two directories,
`os.makedirs(dest_folder, exist_ok=True)`, run `filter_files` (any
exception it raises is re-raised as `HTTPException(400, str(e))`, and
`str` of an `HTTPException` is `"{status_code}: {detail}"`), then the
best-effort copy loop and the response.  Returns the final filesystem
together with the outcome. -/
def filter_and_copy (w : World) (req : FilterRequest) :
    FS × Except HTTPException FilterResponse :=
  if req.source_folder ∉ w.fs.dirs then
    (w.fs, Except.error ⟨400,
      "Source folder does not exist or is not a directory: " ++ req.source_folder⟩)
  else if req.dest_folder_base ∉ w.fs.dirs then
    (w.fs, Except.error ⟨400,
      "Destination base folder does not exist: " ++ req.dest_folder_base⟩)
  else
    let dest_folder := joinPath req.dest_folder_base req.dest_folder_name
    match makedirs w.fs.dirs dest_folder true with
    | Except.error _ => (w.fs, Except.error ⟨500, "Internal Server Error"⟩)
    | Except.ok dirs1 =>
      let fs1 : FS := { w.fs with dirs := dirs1 }
      match filter_files w.walk req.from_timestamp req.to_timestamp req.file_formats
          req.use_created_time with
      | Except.error e =>
        (fs1, Except.error ⟨400, toString e.status_code ++ ": " ++ e.detail⟩)
      | Except.ok matching_files =>
        let out := copyAll fs1 w.copyFails dest_folder matching_files
        (out.1, Except.ok {
          status := "success",
          count := out.2.length,
          destination_folder := dest_folder,
          copied_files := out.2,
          skipped_files := matching_files.length - out.2.length })

deriving instance DecidableEq for Except

/-! ## Helper lemmas: lists and strings -/

/-- Two distinct members force length at least two. -/
theorem length_ge_two_of_two_mem {α : Type} {l : List α} {a b : α}
    (ha : a ∈ l) (hb : b ∈ l) (hab : a ≠ b) : 2 ≤ l.length := by
  match l with
  | [] => cases ha
  | [x] =>
    rw [List.mem_singleton] at ha hb
    exact absurd (ha.trans hb.symm) hab
  | x :: y :: t => simp [List.length_cons]

/-- The function `dropWhile` never lengthens a list. -/
theorem length_dropWhile_le' {α : Type} (p : α → Bool) (l : List α) :
    (l.dropWhile p).length ≤ l.length := by
  induction l with
  | nil => simp
  | cons a t ih =>
    by_cases h : p a
    · rw [List.dropWhile_cons_of_pos h]; exact Nat.le_succ_of_le ih
    · rw [List.dropWhile_cons_of_neg h]

/-- A `dropWhile` that keeps the length keeps the list. -/
theorem dropWhile_eq_self_of_length {α : Type} {p : α → Bool} {l : List α}
    (h : (l.dropWhile p).length = l.length) : l.dropWhile p = l := by
  induction l with
  | nil => simp
  | cons a t ih =>
    by_cases hpa : p a
    · rw [List.dropWhile_cons_of_pos hpa] at h
      have := length_dropWhile_le' p t
      simp [List.length_cons] at h
      omega
    · rw [List.dropWhile_cons_of_neg hpa]

/-- The function `dropWhile` commutes with `map`. -/
theorem dropWhile_map' {α β : Type} (f : α → β) (p : β → Bool) (l : List α) :
    (l.map f).dropWhile p = (l.dropWhile (fun a => p (f a))).map f := by
  induction l with
  | nil => simp
  | cons a t ih => simp only [List.map_cons, List.dropWhile_cons, ih]; by_cases h : p (f a) <;> simp [h]

/-- From `stripL l = l`: the front `dropWhile` already keeps everything. -/
theorem dropWhile_eq_self_of_stripL {l : List Char} (h : stripL l = l) :
    l.dropWhile isPySpace = l := by
  apply dropWhile_eq_self_of_length
  have h1 := length_dropWhile_le' isPySpace l
  have h2 := length_dropWhile_le' isPySpace (l.dropWhile isPySpace).reverse
  have h3 : (stripL l).length = l.length := by rw [h]
  unfold stripL at h3
  rw [List.length_reverse] at h3
  rw [List.length_reverse] at h2
  omega

/-- From `stripL l = l`: the reversed list also survives its `dropWhile`. -/
theorem dropWhile_reverse_eq_self_of_stripL {l : List Char} (h : stripL l = l) :
    l.reverse.dropWhile isPySpace = l.reverse := by
  have hfront := dropWhile_eq_self_of_stripL h
  unfold stripL at h
  rw [hfront] at h
  have : l.reverse.dropWhile isPySpace = l.reverse := by
    have := congrArg List.reverse h
    rw [List.reverse_reverse] at this
    exact this
  exact this

/-- A list equal to its own `dropWhile p` and non-empty starts with a
`p`-negative element, so prepending keeps `dropWhile` trivial. -/
theorem dropWhile_eq_self_head_neg {α : Type} {p : α → Bool} {l : List α}
    (h : l.dropWhile p = l) (hne : l ≠ []) :
    ∃ c t, l = c :: t ∧ p c = false := by
  match l, hne with
  | c :: t, _ =>
    refine ⟨c, t, rfl, ?_⟩
    by_cases hpc : p c
    · rw [List.dropWhile_cons_of_pos hpc] at h
      have := length_dropWhile_le' p t
      have := congrArg List.length h
      simp [List.length_cons] at this
      omega
    · exact Bool.of_not_eq_true hpc

/-! ## Characterising `filter_files` -/

/-- Unfolding of the per-file walk test. -/
theorem matchEntry_eq_true_iff (fmts : List String) (fd td : DateTime) (uct : Bool)
    (e : FileEntry) :
    matchEntry fmts fd td uct e = true ↔
      extOf e.filename ∈ fmts ∧ fd ≤ fileTime uct e ∧ fileTime uct e ≤ td := by
  simp [matchEntry]

/-- With both timestamps parsing and a non-empty normalised format list,
`filter_files` returns the joined paths of the matching walk entries. -/
theorem filter_files_eq_ok {from_ts to_ts : String} {fd td : DateTime}
    (walk : List FileEntry) (ffs : String) (uct : Bool)
    (hf : parseTimestamp from_ts = some fd) (ht : parseTimestamp to_ts = some td)
    (hne : normalizeFormats ffs ≠ []) :
    filter_files walk from_ts to_ts ffs uct =
      Except.ok ((walk.filter (matchEntry (normalizeFormats ffs) fd td uct)).map
        (fun e => joinPath e.root e.filename)) := by
  unfold filter_files
  rw [hf, ht]
  simp [hne]

/-- An unparsable timestamp (in either position) makes `filter_files`
raise the fixed 400 `HTTPException`. -/
theorem filter_files_eq_error_ts (walk : List FileEntry) (from_ts to_ts ffs : String)
    (uct : Bool) (h : parseTimestamp from_ts = none ∨ parseTimestamp to_ts = none) :
    filter_files walk from_ts to_ts ffs uct =
      Except.error ⟨400, "Invalid timestamp format. Use 'YYYY-MM-DD HH:MM:SS'"⟩ := by
  unfold filter_files
  rcases h with h | h
  · rw [h]
  · rw [h]
    rcases hf : parseTimestamp from_ts with _ | fd <;> rfl

/-- An empty normalised format list (with parsable timestamps) makes
`filter_files` raise the "No valid file formats provided" 400. -/
theorem filter_files_eq_error_fmt {from_ts to_ts : String} {fd td : DateTime}
    (walk : List FileEntry) (ffs : String) (uct : Bool)
    (hf : parseTimestamp from_ts = some fd) (ht : parseTimestamp to_ts = some td)
    (hempty : normalizeFormats ffs = []) :
    filter_files walk from_ts to_ts ffs uct =
      Except.error ⟨400, "No valid file formats provided"⟩ := by
  unfold filter_files
  rw [hf, ht]
  simp [hempty]

/-- Claim C1: for every enumerated file whose extension matches the
filter, inclusion in the matched sequence is exactly the inclusive range
test `fromTime ≤ fileTime ≤ toTime`; in particular a file whose
timestamp equals `toTime` exactly is included. -/
theorem C1_inclusion_iff_in_closed_range
    (walk : List FileEntry) (from_ts to_ts ffs : String) (uct : Bool)
    {fd td : DateTime} {l : List String}
    (hf : parseTimestamp from_ts = some fd) (ht : parseTimestamp to_ts = some td)
    (hne : normalizeFormats ffs ≠ [])
    (hl : filter_files walk from_ts to_ts ffs uct = Except.ok l) :
    (∀ p, p ∈ l ↔ ∃ e, e ∈ walk ∧ p = joinPath e.root e.filename ∧
        extOf e.filename ∈ normalizeFormats ffs ∧
        fd ≤ fileTime uct e ∧ fileTime uct e ≤ td) ∧
    (∀ e, e ∈ walk → extOf e.filename ∈ normalizeFormats ffs →
        fd ≤ fileTime uct e → fileTime uct e = td → joinPath e.root e.filename ∈ l) := by
  rw [filter_files_eq_ok walk ffs uct hf ht hne] at hl
  have hl' : l = (walk.filter (matchEntry (normalizeFormats ffs) fd td uct)).map
      (fun e => joinPath e.root e.filename) := by
    cases hl
    rfl
  subst hl'
  constructor
  · intro p
    simp only [List.mem_map, List.mem_filter, matchEntry_eq_true_iff]
    constructor
    · rintro ⟨e, ⟨he, hm⟩, rfl⟩
      exact ⟨e, he, rfl, hm⟩
    · rintro ⟨e, he, rfl, hm⟩
      exact ⟨e, ⟨he, hm⟩, rfl⟩
  · intro e he hext hle heq
    simp only [List.mem_map, List.mem_filter, matchEntry_eq_true_iff]
    exact ⟨e, ⟨he, hext, hle, by rw [heq]; exact Nat.le_refl _⟩, rfl⟩

/-- Witness for C1 at a concrete boundary input: a file whose
modification time equals `toTime` exactly is matched. -/
theorem C1_inclusion_iff_in_closed_range_witness :
    joinPath "/src" "a.txt" ∈ ["/src/a.txt"] :=
  (@C1_inclusion_iff_in_closed_range
      [⟨"/src", "a.txt", ⟨2024, 1, 1, 23, 59, 59⟩, ⟨2024, 1, 1, 10, 0, 0⟩⟩]
      "2024-01-01 00:00:00" "2024-01-01 23:59:59" "txt" false
      ⟨2024, 1, 1, 0, 0, 0⟩ ⟨2024, 1, 1, 23, 59, 59⟩ ["/src/a.txt"]
      (by decide) (by decide) (by decide) (by decide)).2
    ⟨"/src", "a.txt", ⟨2024, 1, 1, 23, 59, 59⟩, ⟨2024, 1, 1, 10, 0, 0⟩⟩
    (by decide) (by decide) (by decide) (by decide)

/-- Claim C6: well-formed timestamps with `fromTime > toTime` raise no
error — the match set is simply empty, whatever files are present. -/
theorem C6_inverted_range_empty
    (walk : List FileEntry) (from_ts to_ts ffs : String) (uct : Bool)
    {fd td : DateTime}
    (hf : parseTimestamp from_ts = some fd) (ht : parseTimestamp to_ts = some td)
    (hne : normalizeFormats ffs ≠ []) (hgt : td < fd) :
    filter_files walk from_ts to_ts ffs uct = Except.ok [] := by
  rw [filter_files_eq_ok walk ffs uct hf ht hne]
  have : walk.filter (matchEntry (normalizeFormats ffs) fd td uct) = [] := by
    rw [List.filter_eq_nil_iff]
    intro e _
    rw [matchEntry_eq_true_iff]
    rintro ⟨-, h1, h2⟩
    rw [DateTime.le_iff] at h1 h2
    rw [DateTime.lt_iff] at hgt
    omega
  rw [this]
  rfl

/-- Witness for C6: an inverted range over a non-empty walk yields
`ok []` and no error. -/
theorem C6_inverted_range_empty_witness :
    filter_files [⟨"/src", "a.txt", ⟨2024, 1, 1, 10, 0, 0⟩, ⟨2024, 1, 1, 10, 0, 0⟩⟩]
      "2024-06-01 00:00:00" "2024-01-01 00:00:00" "txt" false = Except.ok [] :=
  @C6_inverted_range_empty
    [⟨"/src", "a.txt", ⟨2024, 1, 1, 10, 0, 0⟩, ⟨2024, 1, 1, 10, 0, 0⟩⟩]
    "2024-06-01 00:00:00" "2024-01-01 00:00:00" "txt" false
    ⟨2024, 6, 1, 0, 0, 0⟩ ⟨2024, 1, 1, 0, 0, 0⟩
    (by decide) (by decide) (by decide) (by decide)

/-! ## Claims C4 and C5: extension extraction and format-list emptiness -/

/-- Splitting a list free of the separator returns the single whole piece. -/
theorem splitOnChar_eq_single {sep : Char} {l : List Char}
    (h : ∀ c ∈ l, c ≠ sep) : splitOnChar sep l = [l] := by
  induction l with
  | nil => rfl
  | cons c t ih =>
    have ht : ∀ x ∈ t, x ≠ sep := fun x hx => h x (List.mem_cons_of_mem c hx)
    unfold splitOnChar
    rw [ih ht]
    simp [h c (List.mem_cons_self c t)]

/-- On a dot-free filename the extracted "extension" is the whole
lowercased filename. -/
theorem extOf_of_no_dot {filename : String}
    (h : ∀ c ∈ filename.toList, c ≠ '.') : extOf filename = pyLower filename := by
  unfold extOf pySplit
  rw [splitOnChar_eq_single h]
  rfl

/-- Claim C4 counterexample: a file whose dot-free name coincides with a
requested format ("txt") IS matched and included, so a dot-free file is
not always excluded. -/
theorem C4_counterexample :
    (∀ c ∈ "txt".toList, c ≠ '.') ∧
    filter_files [⟨"/src", "txt", ⟨2024, 1, 1, 10, 0, 0⟩, ⟨2024, 1, 1, 10, 0, 0⟩⟩]
      "2024-01-01 00:00:00" "2024-01-01 23:59:59" "txt" false =
      Except.ok ["/src/txt"] := by
  constructor
  · decide
  · decide

/-- Claim C4 (amended): on a dot-free filename the extracted extension
is the full lowercased filename, and the file matches the filter exactly
when that full lowercased name is itself one of the normalised formats
(and its timestamp is in range) — so it can match, e.g. a file literally
named `txt` under the filter `txt`. -/
theorem C4_no_dot_extension (fmts : List String) (fd td : DateTime) (uct : Bool)
    (e : FileEntry) (h : ∀ c ∈ e.filename.toList, c ≠ '.') :
    extOf e.filename = pyLower e.filename ∧
    (matchEntry fmts fd td uct e = true ↔
      pyLower e.filename ∈ fmts ∧ fd ≤ fileTime uct e ∧ fileTime uct e ≤ td) := by
  refine ⟨extOf_of_no_dot h, ?_⟩
  rw [matchEntry_eq_true_iff, extOf_of_no_dot h]

/-- Witness for the amended C4 at the concrete dot-free file `txt`. -/
theorem C4_no_dot_extension_witness :
    extOf "txt" = pyLower "txt" ∧
    (matchEntry ["txt"] ⟨2024, 1, 1, 0, 0, 0⟩ ⟨2024, 1, 1, 23, 59, 59⟩ false
        ⟨"/src", "txt", ⟨2024, 1, 1, 10, 0, 0⟩, ⟨2024, 1, 1, 10, 0, 0⟩⟩ = true ↔
      pyLower "txt" ∈ ["txt"] ∧
        (⟨2024, 1, 1, 0, 0, 0⟩ : DateTime) ≤
          fileTime false ⟨"/src", "txt", ⟨2024, 1, 1, 10, 0, 0⟩, ⟨2024, 1, 1, 10, 0, 0⟩⟩ ∧
        fileTime false ⟨"/src", "txt", ⟨2024, 1, 1, 10, 0, 0⟩, ⟨2024, 1, 1, 10, 0, 0⟩⟩ ≤
          ⟨2024, 1, 1, 23, 59, 59⟩) :=
  C4_no_dot_extension ["txt"] ⟨2024, 1, 1, 0, 0, 0⟩ ⟨2024, 1, 1, 23, 59, 59⟩ false
    ⟨"/src", "txt", ⟨2024, 1, 1, 10, 0, 0⟩, ⟨2024, 1, 1, 10, 0, 0⟩⟩ (by decide)

/-- Claim C5 counterexample: the dot-only token "." survives
normalisation as the empty-string extension, so the format list is NOT
empty and no `EmptyFormatList` error is raised. -/
theorem C5_counterexample :
    normalizeFormats "." = [""] ∧
    filter_files [] "2024-01-01 00:00:00" "2024-01-02 00:00:00" "." false =
      Except.ok [] := by
  constructor
  · decide
  · decide

/-- Claim C5 (amended): with parsable timestamps, `filter_files` raises
the "No valid file formats provided" 400 exactly when the normalised
format list is empty, and that happens exactly when every comma token of
`file_formats` is whitespace-only — a dot-only token does not trigger it. -/
theorem C5_empty_formats_iff
    (walk : List FileEntry) (ffs : String) (uct : Bool)
    {from_ts to_ts : String} {fd td : DateTime}
    (hf : parseTimestamp from_ts = some fd) (ht : parseTimestamp to_ts = some td) :
    ((filter_files walk from_ts to_ts ffs uct =
        Except.error ⟨400, "No valid file formats provided"⟩) ↔
      normalizeFormats ffs = []) ∧
    (normalizeFormats ffs = [] ↔ ∀ tok ∈ pySplit ',' ffs, pyStrip tok = "") := by
  constructor
  · constructor
    · intro herr
      by_cases hempty : normalizeFormats ffs = []
      · exact hempty
      · rw [filter_files_eq_ok walk ffs uct hf ht hempty] at herr
        cases herr
    · intro hempty
      exact filter_files_eq_error_fmt walk ffs uct hf ht hempty
  · unfold normalizeFormats
    rw [List.map_eq_nil_iff, List.filter_eq_nil_iff]
    constructor
    · intro h tok htok
      have := h tok htok
      simpa using this
    · intro h tok htok
      simpa using h tok htok

/-- Witness for the amended C5 at the all-whitespace input `" , "`. -/
theorem C5_empty_formats_iff_witness :
    ((filter_files [] "2024-01-01 00:00:00" "2024-01-02 00:00:00" " , " false =
        Except.error ⟨400, "No valid file formats provided"⟩) ↔
      normalizeFormats " , " = []) ∧
    (normalizeFormats " , " = [] ↔ ∀ tok ∈ pySplit ',' " , ", pyStrip tok = "") :=
  @C5_empty_formats_iff [] " , " false "2024-01-01 00:00:00" "2024-01-02 00:00:00"
    ⟨2024, 1, 1, 0, 0, 0⟩ ⟨2024, 1, 2, 0, 0, 0⟩ (by decide) (by decide)

/-! ## The endpoint: `makedirs`, the copy loop, and the success shape -/

/-- With `exist_ok=True`, `os.makedirs` never raises. -/
theorem makedirs_true (dirs : List String) (path : String) :
    makedirs dirs path true = Except.ok (makedirsOk dirs path) := by
  simp [makedirs]

/-- After `makedirs`, the leaf directory exists. -/
theorem self_mem_makedirsOk (dirs : List String) (path : String) :
    path ∈ makedirsOk dirs path := by
  unfold makedirsOk
  by_cases h : path ∈ dirs
  · rw [if_pos h]; exact h
  · rw [if_neg h]
    exact List.mem_append_right _ (List.mem_singleton_self path)

/-- The call `makedirs` only adds directories. -/
theorem mem_makedirsOk_of_mem {dirs : List String} {q : String} (path : String)
    (h : q ∈ dirs) : q ∈ makedirsOk dirs path := by
  unfold makedirsOk
  by_cases hp : path ∈ dirs
  · rw [if_pos hp]; exact h
  · rw [if_neg hp]
    exact List.mem_append_left _ (List.mem_append_left _ h)

/-- After `makedirs`, every parent segment of the leaf exists (when the
leaf already existed, this needs the starting directory set to be
parent-closed at the leaf, as any real filesystem is). -/
theorem parents_mem_makedirsOk {dirs : List String} {path : String}
    (hwf : path ∈ dirs → ∀ q ∈ parentPrefixes path, q ∈ dirs) :
    ∀ q ∈ parentPrefixes path, q ∈ makedirsOk dirs path := by
  intro q hq
  unfold makedirsOk
  by_cases hp : path ∈ dirs
  · rw [if_pos hp]; exact hwf hp q hq
  · rw [if_neg hp]
    by_cases hqd : q ∈ dirs
    · exact List.mem_append_left _ (List.mem_append_left _ hqd)
    · refine List.mem_append_left _ (List.mem_append_right _ ?_)
      rw [List.mem_filter]
      exact ⟨hq, by simpa using hqd⟩

/-- The copied-paths output of the loop: the destination paths of the
non-failing matches, in enumeration order, independent of the starting
filesystem. -/
theorem copyAll_snd (cf : String → Bool) (dp : String) :
    ∀ (l : List String) (fs : FS),
      (copyAll fs cf dp l).2 =
        (l.filter (fun s => !cf s)).map (fun s => joinPath dp (basename s)) := by
  intro l
  induction l with
  | nil => intro fs; rfl
  | cons src rest ih =>
    intro fs
    by_cases h : cf src <;> simp [copyAll, h, ih, List.filter_cons]

/-- The copy loop never touches the directory set. -/
theorem copyAll_fst_dirs (cf : String → Bool) (dp : String) :
    ∀ (l : List String) (fs : FS), (copyAll fs cf dp l).1.dirs = fs.dirs := by
  intro l
  induction l with
  | nil => intro fs; rfl
  | cons src rest ih =>
    intro fs
    by_cases h : cf src <;> simp [copyAll, h, ih, copy2]

/-- Keys after a `setContent` write: unchanged if the key was bound,
else the new key is appended. -/
theorem map_fst_setContent (c : List (String × String)) (p v : String) :
    (setContent c p v).map Prod.fst =
      if p ∈ c.map Prod.fst then c.map Prod.fst else c.map Prod.fst ++ [p] := by
  induction c with
  | nil => simp [setContent]
  | cons qa rest ih =>
    obtain ⟨q, a⟩ := qa
    by_cases h : q = p
    · subst h
      simp [setContent]
    · simp only [setContent, if_neg h, List.map_cons, ih]
      by_cases hmem : p ∈ rest.map Prod.fst
      · rw [if_pos hmem, if_pos (by simp [hmem])]
      · rw [if_neg hmem, if_neg (by simp [hmem, Ne.symm h])]
        rfl

/-- A `setContent` write preserves distinctness of file paths. -/
theorem nodup_map_fst_setContent {c : List (String × String)} (p v : String)
    (h : (c.map Prod.fst).Nodup) : ((setContent c p v).map Prod.fst).Nodup := by
  rw [map_fst_setContent]
  by_cases hmem : p ∈ c.map Prod.fst
  · rw [if_pos hmem]; exact h
  · rw [if_neg hmem]
    simp [List.nodup_append, h, hmem]

/-- The copy loop preserves distinctness of file paths: however many
matches share a base name, at most one file lives at each destination. -/
theorem copyAll_nodup_keys (cf : String → Bool) (dp : String) :
    ∀ (l : List String) (fs : FS), (fs.contents.map Prod.fst).Nodup →
      ((copyAll fs cf dp l).1.contents.map Prod.fst).Nodup := by
  intro l
  induction l with
  | nil => intro fs h; exact h
  | cons src rest ih =>
    intro fs h
    by_cases hc : cf src
    · simpa [copyAll, hc] using ih fs h
    · simpa [copyAll, hc] using
        ih (copy2 fs src (joinPath dp (basename src))) (nodup_map_fst_setContent _ _ h)

/-- A bound key stays bound across a `setContent` write. -/
theorem getContent_setContent_isSome {c : List (String × String)} {q : String}
    (p v : String) (h : (getContent c q).isSome = true) :
    (getContent (setContent c p v) q).isSome = true := by
  induction c with
  | nil => simp [getContent] at h
  | cons ra rest ih =>
    obtain ⟨r, a⟩ := ra
    by_cases hr : r = p
    · subst hr
      by_cases hq : r = q
      · subst hq; simp [setContent, getContent]
      · rw [getContent, if_neg hq] at h
        simp [setContent, getContent, hq, h]
    · by_cases hq : r = q
      · subst hq; simp [setContent, if_neg hr, getContent]
      · rw [getContent, if_neg hq] at h
        simp [setContent, if_neg hr, getContent, hq, ih h]

/-- The key written by `setContent` is bound afterwards. -/
theorem getContent_setContent_self (c : List (String × String)) (p v : String) :
    (getContent (setContent c p v) p).isSome = true := by
  induction c with
  | nil => simp [setContent, getContent]
  | cons ra rest ih =>
    obtain ⟨r, a⟩ := ra
    by_cases hr : r = p
    · subst hr; simp [setContent, getContent]
    · simp [setContent, if_neg hr, getContent, hr, ih]

/-- A bound key stays bound across the whole copy loop. -/
theorem copyAll_getContent_isSome (cf : String → Bool) (dp : String) :
    ∀ (l : List String) (fs : FS) (q : String), (getContent fs.contents q).isSome = true →
      (getContent (copyAll fs cf dp l).1.contents q).isSome = true := by
  intro l
  induction l with
  | nil => intro fs q h; exact h
  | cons src rest ih =>
    intro fs q h
    by_cases hc : cf src
    · simpa [copyAll, hc] using ih fs q h
    · simpa [copyAll, hc] using
        ih (copy2 fs src (joinPath dp (basename src))) q
          (getContent_setContent_isSome _ _ h)

/-- After the loop, every successfully copied destination path holds a
file. -/
theorem copyAll_dest_isSome (cf : String → Bool) (dp : String) :
    ∀ (l : List String) (fs : FS) (src : String), src ∈ l → cf src = false →
      (getContent (copyAll fs cf dp l).1.contents (joinPath dp (basename src))).isSome = true := by
  intro l
  induction l with
  | nil => intro fs src h; cases h
  | cons a rest ih =>
    intro fs src hmem hcf
    rcases List.mem_cons.mp hmem with rfl | hmem'
    · simp only [copyAll, hcf, Bool.false_eq_true, if_false]
      exact copyAll_getContent_isSome cf dp rest _ _ (getContent_setContent_self _ _ _)
    · by_cases hc : cf a
      · simpa [copyAll, hc] using ih fs src hmem' hcf
      · simpa [copyAll, hc] using
          ih (copy2 fs a (joinPath dp (basename a))) src hmem' hcf

/-- The destination folder the endpoint computes:
`os.path.join(dest_folder_base, dest_folder_name)`. -/
def destFolder (req : FilterRequest) : String :=
  joinPath req.dest_folder_base req.dest_folder_name

/-- The filesystem right after the endpoint's `os.makedirs` call. -/
def afterMakedirs (w : World) (req : FilterRequest) : FS :=
  { dirs := makedirsOk w.fs.dirs (destFolder req), contents := w.fs.contents }

/-- Success shape of the endpoint: with both directories present and a
successful filter, the request creates the destination folder, runs the
copy loop, and reports the copied paths and the skipped count. -/
theorem filter_and_copy_ok (w : World) (req : FilterRequest) (matching : List String)
    (hsrc : req.source_folder ∈ w.fs.dirs) (hbase : req.dest_folder_base ∈ w.fs.dirs)
    (hm : filter_files w.walk req.from_timestamp req.to_timestamp req.file_formats
        req.use_created_time = Except.ok matching) :
    filter_and_copy w req =
      ((copyAll (afterMakedirs w req) w.copyFails (destFolder req) matching).1,
       Except.ok {
         status := "success",
         count := (copyAll (afterMakedirs w req) w.copyFails (destFolder req) matching).2.length,
         destination_folder := destFolder req,
         copied_files := (copyAll (afterMakedirs w req) w.copyFails (destFolder req) matching).2,
         skipped_files :=
           matching.length -
             (copyAll (afterMakedirs w req) w.copyFails (destFolder req) matching).2.length }) := by
  unfold filter_and_copy
  rw [if_neg (not_not_intro hsrc), if_neg (not_not_intro hbase)]
  simp only [makedirs_true, hm, afterMakedirs, destFolder]

/-- Error shape of the endpoint: with both directories present but
`filter_files` raising, the destination folder has ALREADY been created
when the 400 goes out, and the raised detail is `str(e)`. -/
theorem filter_and_copy_err (w : World) (req : FilterRequest) (e : HTTPException)
    (hsrc : req.source_folder ∈ w.fs.dirs) (hbase : req.dest_folder_base ∈ w.fs.dirs)
    (hm : filter_files w.walk req.from_timestamp req.to_timestamp req.file_formats
        req.use_created_time = Except.error e) :
    filter_and_copy w req =
      (afterMakedirs w req,
       Except.error ⟨400, toString e.status_code ++ ": " ++ e.detail⟩) := by
  unfold filter_and_copy
  rw [if_neg (not_not_intro hsrc), if_neg (not_not_intro hbase)]
  simp only [makedirs_true, hm, afterMakedirs, destFolder]

/-! ## Claims C2, C8, C3 -/

/-- The number of elements kept plus the number dropped is the length. -/
theorem length_filter_add_length_filter_not {α : Type} (p : α → Bool) (l : List α) :
    (l.filter p).length + (l.filter (fun a => !p a)).length = l.length := by
  induction l with
  | nil => rfl
  | cons a t ih =>
    by_cases h : p a <;> simp [List.filter_cons, h] <;> omega

/-- Claim C2: one file's copy failure never aborts the batch — the
copied list is exactly the (order-preserved) destination paths of the
non-failing matches, the skipped count is exactly the number of failing
matches, copied plus skipped equals matched, and every non-failing
match does get copied. -/
theorem C2_copy_failure_is_isolated (w : World) (req : FilterRequest)
    (matching : List String)
    (hsrc : req.source_folder ∈ w.fs.dirs) (hbase : req.dest_folder_base ∈ w.fs.dirs)
    (hm : filter_files w.walk req.from_timestamp req.to_timestamp req.file_formats
        req.use_created_time = Except.ok matching) :
    ∃ resp : FilterResponse, (filter_and_copy w req).2 = Except.ok resp ∧
      resp.copied_files = (matching.filter (fun s => !w.copyFails s)).map
        (fun s => joinPath (destFolder req) (basename s)) ∧
      resp.skipped_files = (matching.filter (fun s => w.copyFails s)).length ∧
      resp.copied_files.length + resp.skipped_files = matching.length ∧
      (∀ src ∈ matching, w.copyFails src = false →
        joinPath (destFolder req) (basename src) ∈ resp.copied_files) := by
  rw [filter_and_copy_ok w req matching hsrc hbase hm]
  refine ⟨_, rfl, ?_, ?_, ?_, ?_⟩
  · exact copyAll_snd w.copyFails (destFolder req) matching (afterMakedirs w req)
  · simp only [copyAll_snd w.copyFails (destFolder req) matching (afterMakedirs w req)]
    rw [List.length_map]
    have := length_filter_add_length_filter_not (fun s => !w.copyFails s) matching
    simp only [Bool.not_not] at this
    omega
  · simp only [copyAll_snd w.copyFails (destFolder req) matching (afterMakedirs w req)]
    rw [List.length_map]
    have := length_filter_add_length_filter_not (fun s => !w.copyFails s) matching
    omega
  · intro src hmem hcf
    simp only [copyAll_snd w.copyFails (destFolder req) matching (afterMakedirs w req)]
    exact List.mem_map_of_mem _ (List.mem_filter.mpr ⟨hmem, by simp [hcf]⟩)

/-- Witness for C2: two matches, the second one failing — the first is
still copied, the failure is only reflected in the skipped count. -/
theorem C2_copy_failure_is_isolated_witness :
    ∃ resp : FilterResponse,
      (filter_and_copy
          ⟨⟨["/s", "/d"], [("/s/a.txt", "A"), ("/s/b.txt", "B")]⟩,
            [⟨"/s", "a.txt", ⟨2024, 1, 1, 10, 0, 0⟩, ⟨2024, 1, 1, 10, 0, 0⟩⟩,
             ⟨"/s", "b.txt", ⟨2024, 1, 1, 11, 0, 0⟩, ⟨2024, 1, 1, 11, 0, 0⟩⟩],
            fun s => s == "/s/b.txt"⟩
          ⟨"/s", "2024-01-01 00:00:00", "2024-01-01 23:59:59", "txt", false, "/d", "out"⟩).2 =
        Except.ok resp ∧
      resp.copied_files =
        ((["/s/a.txt", "/s/b.txt"].filter (fun s => !(s == "/s/b.txt"))).map
          (fun s => joinPath (destFolder
            ⟨"/s", "2024-01-01 00:00:00", "2024-01-01 23:59:59", "txt", false, "/d", "out"⟩)
            (basename s))) ∧
      resp.skipped_files = (["/s/a.txt", "/s/b.txt"].filter (fun s => s == "/s/b.txt")).length ∧
      resp.copied_files.length + resp.skipped_files = (["/s/a.txt", "/s/b.txt"] : List String).length ∧
      (∀ src ∈ (["/s/a.txt", "/s/b.txt"] : List String), (fun s => s == "/s/b.txt") src = false →
        joinPath (destFolder
          ⟨"/s", "2024-01-01 00:00:00", "2024-01-01 23:59:59", "txt", false, "/d", "out"⟩)
          (basename src) ∈ resp.copied_files) :=
  C2_copy_failure_is_isolated
    ⟨⟨["/s", "/d"], [("/s/a.txt", "A"), ("/s/b.txt", "B")]⟩,
      [⟨"/s", "a.txt", ⟨2024, 1, 1, 10, 0, 0⟩, ⟨2024, 1, 1, 10, 0, 0⟩⟩,
       ⟨"/s", "b.txt", ⟨2024, 1, 1, 11, 0, 0⟩, ⟨2024, 1, 1, 11, 0, 0⟩⟩],
      fun s => s == "/s/b.txt"⟩
    ⟨"/s", "2024-01-01 00:00:00", "2024-01-01 23:59:59", "txt", false, "/d", "out"⟩
    ["/s/a.txt", "/s/b.txt"] (by decide) (by decide) (by decide)

/-- Claim C8: an unparsable timestamp in either position (with both
folders present, so the earlier directory checks pass) fails the request
with HTTP 400 and a detail that carries the invalid-format message. -/
theorem C8_invalid_timestamp_400 (w : World) (req : FilterRequest)
    (hsrc : req.source_folder ∈ w.fs.dirs) (hbase : req.dest_folder_base ∈ w.fs.dirs)
    (hbad : parseTimestamp req.from_timestamp = none ∨
      parseTimestamp req.to_timestamp = none) :
    (filter_and_copy w req).2 =
      Except.error ⟨400, "400: Invalid timestamp format. Use 'YYYY-MM-DD HH:MM:SS'"⟩ := by
  rw [filter_and_copy_err w req _ hsrc hbase
    (filter_files_eq_error_ts w.walk req.from_timestamp req.to_timestamp req.file_formats
      req.use_created_time hbad)]
  rfl

/-- Witness for C8 at the malformed timestamp "2024/01/01". -/
theorem C8_invalid_timestamp_400_witness :
    (filter_and_copy ⟨⟨["/s", "/d"], []⟩, [], fun _ => false⟩
        ⟨"/s", "2024/01/01", "2024-01-01 00:00:00", "txt", false, "/d", "out"⟩).2 =
      Except.error ⟨400, "400: Invalid timestamp format. Use 'YYYY-MM-DD HH:MM:SS'"⟩ :=
  C8_invalid_timestamp_400 ⟨⟨["/s", "/d"], []⟩, [], fun _ => false⟩
    ⟨"/s", "2024/01/01", "2024-01-01 00:00:00", "txt", false, "/d", "out"⟩
    (by decide) (by decide) (Or.inl (by decide))

/-- Claim C3 counterexample: a request with valid source and base
folders but a malformed `from_timestamp` fails validation, yet the
destination folder — absent beforehand — HAS been created: `os.makedirs`
runs before `filter_files` performs the timestamp/format validation. -/
theorem C3_counterexample :
    "/d/out" ∉ (["/s", "/d"] : List String) ∧
    (∃ e, (filter_and_copy ⟨⟨["/s", "/d"], []⟩, [], fun _ => false⟩
        ⟨"/s", "2024/01/01", "2024-01-01 00:00:00", "txt", false, "/d", "out"⟩).2 =
      Except.error e) ∧
    "/d/out" ∈ (filter_and_copy ⟨⟨["/s", "/d"], []⟩, [], fun _ => false⟩
        ⟨"/s", "2024/01/01", "2024-01-01 00:00:00", "txt", false, "/d", "out"⟩).1.dirs := by
  refine ⟨by decide, ⟨⟨400, "400: Invalid timestamp format. Use 'YYYY-MM-DD HH:MM:SS'"⟩, ?_⟩, ?_⟩
  · decide
  · decide

/-- Claim C3 (amended): a request that fails timestamp or format
validation still aborts with a 400 and copies no file, but the
destination folder has already been created by then (the earlier
source/base directory checks are all that precede the filesystem
effect). -/
theorem C3_no_copy_but_folder_created (w : World) (req : FilterRequest)
    (hsrc : req.source_folder ∈ w.fs.dirs) (hbase : req.dest_folder_base ∈ w.fs.dirs)
    (hval : parseTimestamp req.from_timestamp = none ∨
      parseTimestamp req.to_timestamp = none ∨
      normalizeFormats req.file_formats = []) :
    (∃ e : HTTPException, (filter_and_copy w req).2 = Except.error e ∧ e.status_code = 400) ∧
    (filter_and_copy w req).1.contents = w.fs.contents ∧
    destFolder req ∈ (filter_and_copy w req).1.dirs := by
  have herr : ∃ e₀ : HTTPException, filter_files w.walk req.from_timestamp req.to_timestamp
      req.file_formats req.use_created_time = Except.error e₀ := by
    rcases hval with h | h | h
    · exact ⟨_, filter_files_eq_error_ts w.walk _ _ _ _ (Or.inl h)⟩
    · exact ⟨_, filter_files_eq_error_ts w.walk _ _ _ _ (Or.inr h)⟩
    · rcases hf : parseTimestamp req.from_timestamp with _ | fd
      · exact ⟨_, filter_files_eq_error_ts w.walk _ _ _ _ (Or.inl hf)⟩
      · rcases ht : parseTimestamp req.to_timestamp with _ | td
        · exact ⟨_, filter_files_eq_error_ts w.walk _ _ _ _ (Or.inr ht)⟩
        · exact ⟨_, filter_files_eq_error_fmt w.walk _ _ hf ht h⟩
  obtain ⟨e₀, hm⟩ := herr
  rw [filter_and_copy_err w req e₀ hsrc hbase hm]
  refine ⟨⟨⟨400, toString e₀.status_code ++ ": " ++ e₀.detail⟩, rfl, rfl⟩, rfl, ?_⟩
  show destFolder req ∈ (afterMakedirs w req).dirs
  exact self_mem_makedirsOk w.fs.dirs (destFolder req)

/-- Witness for the amended C3: bad timestamp, folders present — 400,
no contents change, destination folder present afterwards. -/
theorem C3_no_copy_but_folder_created_witness :
    (∃ e : HTTPException, (filter_and_copy ⟨⟨["/s", "/d"], []⟩, [], fun _ => false⟩
        ⟨"/s", "2024/01/01", "2024-01-01 00:00:00", "txt", false, "/d", "out"⟩).2 =
      Except.error e ∧ e.status_code = 400) ∧
    (filter_and_copy ⟨⟨["/s", "/d"], []⟩, [], fun _ => false⟩
        ⟨"/s", "2024/01/01", "2024-01-01 00:00:00", "txt", false, "/d", "out"⟩).1.contents =
      ([] : List (String × String)) ∧
    destFolder ⟨"/s", "2024/01/01", "2024-01-01 00:00:00", "txt", false, "/d", "out"⟩ ∈
      (filter_and_copy ⟨⟨["/s", "/d"], []⟩, [], fun _ => false⟩
        ⟨"/s", "2024/01/01", "2024-01-01 00:00:00", "txt", false, "/d", "out"⟩).1.dirs :=
  C3_no_copy_but_folder_created ⟨⟨["/s", "/d"], []⟩, [], fun _ => false⟩
    ⟨"/s", "2024/01/01", "2024-01-01 00:00:00", "txt", false, "/d", "out"⟩
    (by decide) (by decide) (Or.inl (by decide))

/-! ## Claim C9: idempotent destination creation -/

/-- Calling `makedirs` on an existing leaf changes nothing. -/
theorem makedirsOk_of_mem {dirs : List String} {path : String} (h : path ∈ dirs) :
    makedirsOk dirs path = dirs := by
  unfold makedirsOk
  rw [if_pos h]

/-- When the destination folder already exists, the `os.makedirs` step
leaves the filesystem untouched. -/
theorem afterMakedirs_of_mem (w : World) (req : FilterRequest)
    (h : destFolder req ∈ w.fs.dirs) : afterMakedirs w req = w.fs := by
  unfold afterMakedirs
  rw [makedirsOk_of_mem h]

/-- Claim C9: with a parent-closed starting directory set, the first run
succeeds and creates the destination folder and its parents; re-running
the request on the resulting filesystem raises no error, changes no
directory, returns the identical response (same-named files are
overwritten, not refused), and leaves a file at every successfully
copied destination path. -/
theorem C9_makedirs_idempotent (w : World) (req : FilterRequest) (matching : List String)
    (hsrc : req.source_folder ∈ w.fs.dirs) (hbase : req.dest_folder_base ∈ w.fs.dirs)
    (hm : filter_files w.walk req.from_timestamp req.to_timestamp req.file_formats
        req.use_created_time = Except.ok matching)
    (hwf : destFolder req ∈ w.fs.dirs →
      ∀ q ∈ parentPrefixes (destFolder req), q ∈ w.fs.dirs) :
    (∃ resp : FilterResponse, (filter_and_copy w req).2 = Except.ok resp) ∧
    destFolder req ∈ (filter_and_copy w req).1.dirs ∧
    (∀ q ∈ parentPrefixes (destFolder req), q ∈ (filter_and_copy w req).1.dirs) ∧
    (filter_and_copy ⟨(filter_and_copy w req).1, w.walk, w.copyFails⟩ req).1.dirs =
      (filter_and_copy w req).1.dirs ∧
    (filter_and_copy ⟨(filter_and_copy w req).1, w.walk, w.copyFails⟩ req).2 =
      (filter_and_copy w req).2 ∧
    (∀ src ∈ matching, w.copyFails src = false →
      (getContent
        (filter_and_copy ⟨(filter_and_copy w req).1, w.walk, w.copyFails⟩ req).1.contents
        (joinPath (destFolder req) (basename src))).isSome = true) := by
  rw [filter_and_copy_ok w req matching hsrc hbase hm]
  dsimp only
  have hdirs1 : (copyAll (afterMakedirs w req) w.copyFails (destFolder req) matching).1.dirs =
      makedirsOk w.fs.dirs (destFolder req) :=
    copyAll_fst_dirs w.copyFails (destFolder req) matching (afterMakedirs w req)
  have hsrc2 : req.source_folder ∈
      (copyAll (afterMakedirs w req) w.copyFails (destFolder req) matching).1.dirs := by
    rw [hdirs1]
    exact mem_makedirsOk_of_mem _ hsrc
  have hbase2 : req.dest_folder_base ∈
      (copyAll (afterMakedirs w req) w.copyFails (destFolder req) matching).1.dirs := by
    rw [hdirs1]
    exact mem_makedirsOk_of_mem _ hbase
  have hD : destFolder req ∈
      (copyAll (afterMakedirs w req) w.copyFails (destFolder req) matching).1.dirs := by
    rw [hdirs1]
    exact self_mem_makedirsOk _ _
  have hok2 := filter_and_copy_ok
    ⟨(copyAll (afterMakedirs w req) w.copyFails (destFolder req) matching).1, w.walk,
      w.copyFails⟩ req matching hsrc2 hbase2 hm
  have hafter2 := afterMakedirs_of_mem
    ⟨(copyAll (afterMakedirs w req) w.copyFails (destFolder req) matching).1, w.walk,
      w.copyFails⟩ req hD
  rw [hok2, hafter2]
  dsimp only
  refine ⟨⟨_, rfl⟩, hD, ?_, ?_, ?_, ?_⟩
  · intro q hq
    rw [hdirs1]
    exact parents_mem_makedirsOk hwf q hq
  · rw [copyAll_fst_dirs]
  · simp only [copyAll_snd]
  · intro src hsm hcf
    exact copyAll_dest_isSome w.copyFails (destFolder req) matching _ src hsm hcf

/-- Witness for C9 at a one-file world where the destination does not
exist yet. -/
theorem C9_makedirs_idempotent_witness :
    (∃ resp : FilterResponse, (filter_and_copy
        ⟨⟨["/s", "/d"], [("/s/a.txt", "A")]⟩,
          [⟨"/s", "a.txt", ⟨2024, 1, 1, 10, 0, 0⟩, ⟨2024, 1, 1, 10, 0, 0⟩⟩],
          fun _ => false⟩
        ⟨"/s", "2024-01-01 00:00:00", "2024-01-01 23:59:59", "txt", false, "/d", "out"⟩).2 =
      Except.ok resp) ∧
    destFolder ⟨"/s", "2024-01-01 00:00:00", "2024-01-01 23:59:59", "txt", false, "/d", "out"⟩ ∈
      (filter_and_copy
        ⟨⟨["/s", "/d"], [("/s/a.txt", "A")]⟩,
          [⟨"/s", "a.txt", ⟨2024, 1, 1, 10, 0, 0⟩, ⟨2024, 1, 1, 10, 0, 0⟩⟩],
          fun _ => false⟩
        ⟨"/s", "2024-01-01 00:00:00", "2024-01-01 23:59:59", "txt", false, "/d", "out"⟩).1.dirs ∧
    (∀ q ∈ parentPrefixes (destFolder
        ⟨"/s", "2024-01-01 00:00:00", "2024-01-01 23:59:59", "txt", false, "/d", "out"⟩),
      q ∈ (filter_and_copy
        ⟨⟨["/s", "/d"], [("/s/a.txt", "A")]⟩,
          [⟨"/s", "a.txt", ⟨2024, 1, 1, 10, 0, 0⟩, ⟨2024, 1, 1, 10, 0, 0⟩⟩],
          fun _ => false⟩
        ⟨"/s", "2024-01-01 00:00:00", "2024-01-01 23:59:59", "txt", false, "/d", "out"⟩).1.dirs) ∧
    (filter_and_copy
        ⟨(filter_and_copy
            ⟨⟨["/s", "/d"], [("/s/a.txt", "A")]⟩,
              [⟨"/s", "a.txt", ⟨2024, 1, 1, 10, 0, 0⟩, ⟨2024, 1, 1, 10, 0, 0⟩⟩],
              fun _ => false⟩
            ⟨"/s", "2024-01-01 00:00:00", "2024-01-01 23:59:59", "txt", false, "/d", "out"⟩).1,
          [⟨"/s", "a.txt", ⟨2024, 1, 1, 10, 0, 0⟩, ⟨2024, 1, 1, 10, 0, 0⟩⟩],
          fun _ => false⟩
        ⟨"/s", "2024-01-01 00:00:00", "2024-01-01 23:59:59", "txt", false, "/d", "out"⟩).1.dirs =
      (filter_and_copy
        ⟨⟨["/s", "/d"], [("/s/a.txt", "A")]⟩,
          [⟨"/s", "a.txt", ⟨2024, 1, 1, 10, 0, 0⟩, ⟨2024, 1, 1, 10, 0, 0⟩⟩],
          fun _ => false⟩
        ⟨"/s", "2024-01-01 00:00:00", "2024-01-01 23:59:59", "txt", false, "/d", "out"⟩).1.dirs ∧
    (filter_and_copy
        ⟨(filter_and_copy
            ⟨⟨["/s", "/d"], [("/s/a.txt", "A")]⟩,
              [⟨"/s", "a.txt", ⟨2024, 1, 1, 10, 0, 0⟩, ⟨2024, 1, 1, 10, 0, 0⟩⟩],
              fun _ => false⟩
            ⟨"/s", "2024-01-01 00:00:00", "2024-01-01 23:59:59", "txt", false, "/d", "out"⟩).1,
          [⟨"/s", "a.txt", ⟨2024, 1, 1, 10, 0, 0⟩, ⟨2024, 1, 1, 10, 0, 0⟩⟩],
          fun _ => false⟩
        ⟨"/s", "2024-01-01 00:00:00", "2024-01-01 23:59:59", "txt", false, "/d", "out"⟩).2 =
      (filter_and_copy
        ⟨⟨["/s", "/d"], [("/s/a.txt", "A")]⟩,
          [⟨"/s", "a.txt", ⟨2024, 1, 1, 10, 0, 0⟩, ⟨2024, 1, 1, 10, 0, 0⟩⟩],
          fun _ => false⟩
        ⟨"/s", "2024-01-01 00:00:00", "2024-01-01 23:59:59", "txt", false, "/d", "out"⟩).2 ∧
    (∀ src ∈ (["/s/a.txt"] : List String), (fun _ => false : String → Bool) src = false →
      (getContent
        (filter_and_copy
          ⟨(filter_and_copy
              ⟨⟨["/s", "/d"], [("/s/a.txt", "A")]⟩,
                [⟨"/s", "a.txt", ⟨2024, 1, 1, 10, 0, 0⟩, ⟨2024, 1, 1, 10, 0, 0⟩⟩],
                fun _ => false⟩
              ⟨"/s", "2024-01-01 00:00:00", "2024-01-01 23:59:59", "txt", false, "/d", "out"⟩).1,
            [⟨"/s", "a.txt", ⟨2024, 1, 1, 10, 0, 0⟩, ⟨2024, 1, 1, 10, 0, 0⟩⟩],
            fun _ => false⟩
          ⟨"/s", "2024-01-01 00:00:00", "2024-01-01 23:59:59", "txt", false, "/d", "out"⟩).1.contents
        (joinPath (destFolder
          ⟨"/s", "2024-01-01 00:00:00", "2024-01-01 23:59:59", "txt", false, "/d", "out"⟩)
          (basename src))).isSome = true) :=
  C9_makedirs_idempotent
    ⟨⟨["/s", "/d"], [("/s/a.txt", "A")]⟩,
      [⟨"/s", "a.txt", ⟨2024, 1, 1, 10, 0, 0⟩, ⟨2024, 1, 1, 10, 0, 0⟩⟩],
      fun _ => false⟩
    ⟨"/s", "2024-01-01 00:00:00", "2024-01-01 23:59:59", "txt", false, "/d", "out"⟩
    ["/s/a.txt"] (by decide) (by decide) (by decide) (by decide)

/-! ## Claim C10: shape of `copied_files` -/

/-- Two distinct satisfying members of a list give `countP` at least two. -/
theorem two_le_countP {α : Type} (p : α → Bool) (l : List α) {a b : α}
    (ha : a ∈ l) (hb : b ∈ l) (hab : a ≠ b) (hpa : p a = true) (hpb : p b = true) :
    2 ≤ l.countP p := by
  rw [List.countP_eq_length_filter]
  exact length_ge_two_of_two_mem (List.mem_filter.mpr ⟨ha, hpa⟩)
    (List.mem_filter.mpr ⟨hb, hpb⟩) hab

/-- Claim C10: in a successful response every `copied_files` entry is the
destination folder joined with a matched source's base name (never the
source path), in matched-enumeration order; `count` is the length of
`copied_files`; two matched sources sharing a base name put the same
destination path into `copied_files` twice; and still at most one file
lives at any path afterwards. -/
theorem C10_copied_files_are_dest_paths (w : World) (req : FilterRequest)
    (matching : List String)
    (hsrc : req.source_folder ∈ w.fs.dirs) (hbase : req.dest_folder_base ∈ w.fs.dirs)
    (hm : filter_files w.walk req.from_timestamp req.to_timestamp req.file_formats
        req.use_created_time = Except.ok matching)
    (hkeys : (w.fs.contents.map Prod.fst).Nodup) :
    ∃ resp : FilterResponse, (filter_and_copy w req).2 = Except.ok resp ∧
      resp.copied_files = (matching.filter (fun s => !w.copyFails s)).map
        (fun s => joinPath (destFolder req) (basename s)) ∧
      (∀ p ∈ resp.copied_files, ∃ src ∈ matching,
        p = joinPath (destFolder req) (basename src)) ∧
      resp.count = resp.copied_files.length ∧
      (∀ s₁ ∈ matching, ∀ s₂ ∈ matching, s₁ ≠ s₂ → basename s₁ = basename s₂ →
        w.copyFails s₁ = false → w.copyFails s₂ = false →
        2 ≤ resp.copied_files.count (joinPath (destFolder req) (basename s₁))) ∧
      ((filter_and_copy w req).1.contents.map Prod.fst).Nodup := by
  rw [filter_and_copy_ok w req matching hsrc hbase hm]
  dsimp only
  refine ⟨_, rfl, copyAll_snd w.copyFails (destFolder req) matching (afterMakedirs w req),
    ?_, rfl, ?_, ?_⟩
  · intro p hp
    rw [copyAll_snd] at hp
    obtain ⟨s, hs, rfl⟩ := List.mem_map.mp hp
    exact ⟨s, (List.mem_filter.mp hs).1, rfl⟩
  · intro s₁ h₁ s₂ h₂ hne hbn hc₁ hc₂
    rw [copyAll_snd]
    have h₁' : s₁ ∈ matching.filter (fun s => !w.copyFails s) :=
      List.mem_filter.mpr ⟨h₁, by simp [hc₁]⟩
    have h₂' : s₂ ∈ matching.filter (fun s => !w.copyFails s) :=
      List.mem_filter.mpr ⟨h₂, by simp [hc₂]⟩
    rw [List.count_eq_countP, List.countP_map]
    refine two_le_countP _ _ h₁' h₂' hne ?_ ?_
    · simp
    · simp [hbn]
  · exact copyAll_nodup_keys w.copyFails (destFolder req) matching (afterMakedirs w req) hkeys

/-- Witness for C10: two matched sources named `c.txt` in different
subfolders — the same destination path is reported twice. -/
theorem C10_copied_files_are_dest_paths_witness :
    ∃ resp : FilterResponse,
      (filter_and_copy
          ⟨⟨["/s", "/d"], []⟩,
            [⟨"/s/x", "c.txt", ⟨2024, 1, 1, 10, 0, 0⟩, ⟨2024, 1, 1, 10, 0, 0⟩⟩,
             ⟨"/s/y", "c.txt", ⟨2024, 1, 1, 11, 0, 0⟩, ⟨2024, 1, 1, 11, 0, 0⟩⟩],
            fun _ => false⟩
          ⟨"/s", "2024-01-01 00:00:00", "2024-01-01 23:59:59", "txt", false, "/d", "out"⟩).2 =
        Except.ok resp ∧
      resp.copied_files = ((["/s/x/c.txt", "/s/y/c.txt"].filter
          (fun s => !(fun _ => false : String → Bool) s)).map
        (fun s => joinPath (destFolder
          ⟨"/s", "2024-01-01 00:00:00", "2024-01-01 23:59:59", "txt", false, "/d", "out"⟩)
          (basename s))) ∧
      (∀ p ∈ resp.copied_files, ∃ src ∈ (["/s/x/c.txt", "/s/y/c.txt"] : List String),
        p = joinPath (destFolder
          ⟨"/s", "2024-01-01 00:00:00", "2024-01-01 23:59:59", "txt", false, "/d", "out"⟩)
          (basename src)) ∧
      resp.count = resp.copied_files.length ∧
      (∀ s₁ ∈ (["/s/x/c.txt", "/s/y/c.txt"] : List String),
        ∀ s₂ ∈ (["/s/x/c.txt", "/s/y/c.txt"] : List String),
        s₁ ≠ s₂ → basename s₁ = basename s₂ →
        (fun _ => false : String → Bool) s₁ = false →
        (fun _ => false : String → Bool) s₂ = false →
        2 ≤ resp.copied_files.count (joinPath (destFolder
          ⟨"/s", "2024-01-01 00:00:00", "2024-01-01 23:59:59", "txt", false, "/d", "out"⟩)
          (basename s₁))) ∧
      ((filter_and_copy
          ⟨⟨["/s", "/d"], []⟩,
            [⟨"/s/x", "c.txt", ⟨2024, 1, 1, 10, 0, 0⟩, ⟨2024, 1, 1, 10, 0, 0⟩⟩,
             ⟨"/s/y", "c.txt", ⟨2024, 1, 1, 11, 0, 0⟩, ⟨2024, 1, 1, 11, 0, 0⟩⟩],
            fun _ => false⟩
          ⟨"/s", "2024-01-01 00:00:00", "2024-01-01 23:59:59", "txt", false, "/d", "out"⟩).1.contents.map
        Prod.fst).Nodup :=
  C10_copied_files_are_dest_paths
    ⟨⟨["/s", "/d"], []⟩,
      [⟨"/s/x", "c.txt", ⟨2024, 1, 1, 10, 0, 0⟩, ⟨2024, 1, 1, 10, 0, 0⟩⟩,
       ⟨"/s/y", "c.txt", ⟨2024, 1, 1, 11, 0, 0⟩, ⟨2024, 1, 1, 11, 0, 0⟩⟩],
      fun _ => false⟩
    ⟨"/s", "2024-01-01 00:00:00", "2024-01-01 23:59:59", "txt", false, "/d", "out"⟩
    ["/s/x/c.txt", "/s/y/c.txt"] (by decide) (by decide) (by decide) (by decide)

/-! ## Claim C7: case- and leading-dot-insensitive extension filters -/

/-- Joint per-character facts about the ASCII case maps: upper-casing
preserves whitespace status, and lowercasing after upper-casing is
plain lowercasing. -/
theorem pyCharFacts (c : Char) :
    isPySpace (pyUpperChar c) = isPySpace c ∧
      pyLowerChar (pyUpperChar c) = pyLowerChar c := by
  by_cases h1 : c = 'a'
  · subst h1; exact ⟨rfl, rfl⟩
  by_cases h2 : c = 'b'
  · subst h2; exact ⟨rfl, rfl⟩
  by_cases h3 : c = 'c'
  · subst h3; exact ⟨rfl, rfl⟩
  by_cases h4 : c = 'd'
  · subst h4; exact ⟨rfl, rfl⟩
  by_cases h5 : c = 'e'
  · subst h5; exact ⟨rfl, rfl⟩
  by_cases h6 : c = 'f'
  · subst h6; exact ⟨rfl, rfl⟩
  by_cases h7 : c = 'g'
  · subst h7; exact ⟨rfl, rfl⟩
  by_cases h8 : c = 'h'
  · subst h8; exact ⟨rfl, rfl⟩
  by_cases h9 : c = 'i'
  · subst h9; exact ⟨rfl, rfl⟩
  by_cases h10 : c = 'j'
  · subst h10; exact ⟨rfl, rfl⟩
  by_cases h11 : c = 'k'
  · subst h11; exact ⟨rfl, rfl⟩
  by_cases h12 : c = 'l'
  · subst h12; exact ⟨rfl, rfl⟩
  by_cases h13 : c = 'm'
  · subst h13; exact ⟨rfl, rfl⟩
  by_cases h14 : c = 'n'
  · subst h14; exact ⟨rfl, rfl⟩
  by_cases h15 : c = 'o'
  · subst h15; exact ⟨rfl, rfl⟩
  by_cases h16 : c = 'p'
  · subst h16; exact ⟨rfl, rfl⟩
  by_cases h17 : c = 'q'
  · subst h17; exact ⟨rfl, rfl⟩
  by_cases h18 : c = 'r'
  · subst h18; exact ⟨rfl, rfl⟩
  by_cases h19 : c = 's'
  · subst h19; exact ⟨rfl, rfl⟩
  by_cases h20 : c = 't'
  · subst h20; exact ⟨rfl, rfl⟩
  by_cases h21 : c = 'u'
  · subst h21; exact ⟨rfl, rfl⟩
  by_cases h22 : c = 'v'
  · subst h22; exact ⟨rfl, rfl⟩
  by_cases h23 : c = 'w'
  · subst h23; exact ⟨rfl, rfl⟩
  by_cases h24 : c = 'x'
  · subst h24; exact ⟨rfl, rfl⟩
  by_cases h25 : c = 'y'
  · subst h25; exact ⟨rfl, rfl⟩
  by_cases h26 : c = 'z'
  · subst h26; exact ⟨rfl, rfl⟩
  have he : pyUpperChar c = c := by
    unfold pyUpperChar
    rw [if_neg h1, if_neg h2, if_neg h3, if_neg h4, if_neg h5, if_neg h6, if_neg h7, if_neg h8, if_neg h9, if_neg h10, if_neg h11, if_neg h12, if_neg h13, if_neg h14, if_neg h15, if_neg h16, if_neg h17, if_neg h18, if_neg h19, if_neg h20, if_neg h21, if_neg h22, if_neg h23, if_neg h24, if_neg h25, if_neg h26]
  rw [he]
  exact ⟨rfl, rfl⟩

/-- The ASCII upper-casing of a character keeps its whitespace status. -/
theorem isPySpace_pyUpperChar (c : Char) : isPySpace (pyUpperChar c) = isPySpace c :=
  (pyCharFacts c).1

/-- Lowercasing after uppercasing is just lowercasing. -/
theorem pyLowerChar_pyUpperChar (c : Char) :
    pyLowerChar (pyUpperChar c) = pyLowerChar c :=
  (pyCharFacts c).2

/-- Stripping commutes with a character map that preserves whitespace. -/
theorem stripL_map (f : Char → Char) (hf : ∀ c, isPySpace (f c) = isPySpace c)
    (l : List Char) : stripL (l.map f) = (stripL l).map f := by
  have hfe : (fun a => isPySpace (f a)) = isPySpace := funext hf
  unfold stripL
  rw [dropWhile_map' f isPySpace l, hfe, ← List.map_reverse,
    dropWhile_map' f isPySpace _, hfe, ← List.map_reverse]

/-- Stripping commutes with `str.upper()`. -/
theorem pyStrip_pyUpper (t : String) : pyStrip (pyUpper t) = pyUpper (pyStrip t) := by
  show String.mk (stripL (t.toList.map pyUpperChar)) =
    String.mk ((stripL t.toList).map pyUpperChar)
  rw [stripL_map pyUpperChar isPySpace_pyUpperChar t.toList]

/-- Lowercasing after `str.upper()` is plain lowercasing. -/
theorem pyLower_pyUpper (t : String) : pyLower (pyUpper t) = pyLower t := by
  show String.mk ((t.toList.map pyUpperChar).map pyLowerChar) =
    String.mk (t.toList.map pyLowerChar)
  rw [List.map_map]
  congr 1
  exact List.map_congr_left (fun c _ => pyLowerChar_pyUpperChar c)

/-- Uppercasing never empties a non-empty string. -/
theorem pyUpper_ne_empty {t : String} (h : t ≠ "") : pyUpper t ≠ "" := by
  obtain ⟨l⟩ := t
  cases l with
  | nil => exact absurd rfl h
  | cons c r =>
    intro hc
    have hd : (pyUpperChar c :: r.map pyUpperChar) = ([] : List Char) :=
      congrArg String.data hc
    exact List.noConfusion hd

/-- Prepending a dot never yields the empty string. -/
theorem dot_append_ne_empty (t : String) : ("." ++ t) ≠ "" := by
  obtain ⟨l⟩ := t
  intro hc
  have hd : ('.' :: l) = ([] : List Char) := congrArg String.data hc
  exact List.noConfusion hd

/-- A token unchanged by `strip()` stays unchanged after a dot is
prepended: the dot is not whitespace and the ends were already clean. -/
theorem pyStrip_dot_append {t : String} (hclean : pyStrip t = t) (hne : t ≠ "") :
    pyStrip ("." ++ t) = "." ++ t := by
  obtain ⟨l⟩ := t
  have hstrip : stripL l = l := congrArg String.data hclean
  have hlne : l ≠ [] := by
    intro h
    subst h
    exact hne rfl
  have hback : l.reverse.dropWhile isPySpace = l.reverse :=
    dropWhile_reverse_eq_self_of_stripL hstrip
  show String.mk (stripL ('.' :: l)) = String.mk ('.' :: l)
  congr 1
  unfold stripL
  rw [List.dropWhile_cons_of_neg (by decide), List.reverse_cons]
  have hrevne : l.reverse ≠ [] := by simpa using hlne
  obtain ⟨c, r, hcr, hcneg⟩ := dropWhile_eq_self_head_neg hback hrevne
  rw [hcr, List.cons_append, List.dropWhile_cons_of_neg (by simp [hcneg]),
    ← List.cons_append, ← hcr, List.reverse_append, List.reverse_reverse]
  rfl

/-- Lowercasing then dot-stripping ignores one prepended dot. -/
theorem normTok_dot (t : String) :
    pyLstripDot (pyLower ("." ++ t)) = pyLstripDot (pyLower t) := by
  obtain ⟨l⟩ := t
  rfl

/-- The result of `filter_files` depends on `file_formats` only through the normalised
format list. -/
theorem filter_files_congr (walk : List FileEntry) (from_ts to_ts : String) (uct : Bool)
    {a b : String} (h : normalizeFormats a = normalizeFormats b) :
    filter_files walk from_ts to_ts a uct = filter_files walk from_ts to_ts b uct := by
  unfold filter_files
  cases parseTimestamp from_ts <;> cases parseTimestamp to_ts <;> simp [h]

/-- Replacing one comma token by another with the same guard value and
the same normalised form leaves the normalised format list unchanged. -/
theorem normalizeTokens_congr (pre post : List String) {x y : String}
    (hg : (pyStrip x != "") = (pyStrip y != ""))
    (hv : pyLstripDot (pyLower (pyStrip x)) = pyLstripDot (pyLower (pyStrip y))) :
    ((pre ++ x :: post).filter (fun fmt => pyStrip fmt != "")).map
        (fun fmt => pyLstripDot (pyLower (pyStrip fmt))) =
      ((pre ++ y :: post).filter (fun fmt => pyStrip fmt != "")).map
        (fun fmt => pyLstripDot (pyLower (pyStrip fmt))) := by
  simp only [List.filter_append, List.filter_cons, List.map_append]
  rw [hg]
  by_cases hgy : (pyStrip y != "") = true
  · rw [if_pos hgy, if_pos hgy]
    simp [hv]
  · rw [if_neg hgy, if_neg hgy]

/-- Claim C7: replacing an extension token by its uppercase form, or by
the same token with a leading dot, leaves the result of the filter
unchanged on every filesystem state — in particular "TXT", ".txt" and
"txt" are equivalent filters. -/
theorem C7_extension_filter_invariance
    (walk : List FileEntry) (from_ts to_ts : String) (uct : Bool)
    (s₁ sU sD : String) (pre post : List String) (t : String)
    (h₁ : pySplit ',' s₁ = pre ++ t :: post)
    (hU : pySplit ',' sU = pre ++ pyUpper t :: post)
    (hD : pySplit ',' sD = pre ++ ("." ++ t) :: post)
    (hclean : pyStrip t = t) (hne : t ≠ "") :
    filter_files walk from_ts to_ts sU uct = filter_files walk from_ts to_ts s₁ uct ∧
    filter_files walk from_ts to_ts sD uct = filter_files walk from_ts to_ts s₁ uct := by
  have hgt : (pyStrip t != "") = true := by
    rw [hclean]
    simpa using hne
  have hgU : (pyStrip (pyUpper t) != "") = true := by
    rw [pyStrip_pyUpper, hclean]
    simpa using pyUpper_ne_empty hne
  have hgD : (pyStrip ("." ++ t) != "") = true := by
    rw [pyStrip_dot_append hclean hne]
    simpa using dot_append_ne_empty t
  have hvU : pyLstripDot (pyLower (pyStrip (pyUpper t))) =
      pyLstripDot (pyLower (pyStrip t)) := by
    rw [pyStrip_pyUpper, hclean, pyLower_pyUpper]
  have hvD : pyLstripDot (pyLower (pyStrip ("." ++ t))) =
      pyLstripDot (pyLower (pyStrip t)) := by
    rw [pyStrip_dot_append hclean hne, hclean, normTok_dot]
  constructor
  · apply filter_files_congr
    unfold normalizeFormats pySplit
    rw [← pySplit, ← pySplit, hU, h₁]
    exact normalizeTokens_congr pre post (by rw [hgU, hgt]) hvU
  · apply filter_files_congr
    unfold normalizeFormats pySplit
    rw [← pySplit, ← pySplit, hD, h₁]
    exact normalizeTokens_congr pre post (by rw [hgD, hgt]) hvD

/-- Witness for C7: the filters "TXT", ".txt" and "txt" agree on a
concrete walk containing `a.TXT`. -/
theorem C7_extension_filter_invariance_witness :
    (filter_files [⟨"/s", "a.TXT", ⟨2024, 1, 1, 10, 0, 0⟩, ⟨2024, 1, 1, 10, 0, 0⟩⟩]
        "2024-01-01 00:00:00" "2024-01-02 00:00:00" "TXT" false =
      filter_files [⟨"/s", "a.TXT", ⟨2024, 1, 1, 10, 0, 0⟩, ⟨2024, 1, 1, 10, 0, 0⟩⟩]
        "2024-01-01 00:00:00" "2024-01-02 00:00:00" "txt" false) ∧
    (filter_files [⟨"/s", "a.TXT", ⟨2024, 1, 1, 10, 0, 0⟩, ⟨2024, 1, 1, 10, 0, 0⟩⟩]
        "2024-01-01 00:00:00" "2024-01-02 00:00:00" ".txt" false =
      filter_files [⟨"/s", "a.TXT", ⟨2024, 1, 1, 10, 0, 0⟩, ⟨2024, 1, 1, 10, 0, 0⟩⟩]
        "2024-01-01 00:00:00" "2024-01-02 00:00:00" "txt" false) :=
  C7_extension_filter_invariance
    [⟨"/s", "a.TXT", ⟨2024, 1, 1, 10, 0, 0⟩, ⟨2024, 1, 1, 10, 0, 0⟩⟩]
    "2024-01-01 00:00:00" "2024-01-02 00:00:00" false
    "txt" "TXT" ".txt" [] [] "txt"
    (by decide) (by decide) (by decide) (by decide) (by decide)
